import Mathlib

/-!
Verification of the go-dns-update reconciliation workflow.

The Go program (src/main.go) is embedded shallowly:

* Dynamic JSON values (`map[string]any`, `[]any`, strings, booleans) become
  the inductive `Json`.  A Go map lookup `m["k"]` that misses yields Go `nil`,
  modelled as `none`.
* A Go type assertion `v.(T)` on a value of the wrong shape (or on `nil`)
  panics; panicking computations are modelled with `Option` (`none` = panic)
  and surfaced in results as `RResult.panic`.
* Every outbound HTTP interaction is a parameter of the embedded function:
  either the transport failed (`HttpResp.fail`, carrying the transport error
  the Go `http.Client.Do` returned) or a response arrived with a status code
  and a parsed JSON body (`HttpResp.resp`).  `json.Unmarshal` errors are
  ignored by the Go code, leaving the target map nil, which behaves like an
  empty object; callers may therefore pass any `Json` body.
* `log.Fatal` (logrus) logs and then exits the process with status 1; an
  embedded function whose Go original reaches `log.Fatal` and would then
  return an error is modelled as `RResult.err`, and `runMain` maps that to a
  non-zero exit.
* Observable calls (the two resolutions, the record listing, the record
  writes) are recorded in a trace of `Event`s in program order.
-/

/-- Transport-level failures of an HTTP round trip, as distinguishable
error values (Go wraps `context.DeadlineExceeded` for timeouts). -/
inductive TransportErr where
  | deadlineExceeded : TransportErr
  | connectionRefused : TransportErr
  | other : String → TransportErr
deriving DecidableEq, Repr

/-- Errors the Go functions return (or exit with, via `log.Fatal`). -/
inductive GoError where
  | transport : TransportErr → GoError
  | noMatchDomain : GoError
  | noWWW : String → GoError
deriving DecidableEq, Repr

/-- Result of running one embedded Go function: a returned value, a returned
or fatally-logged error, or a runtime panic from an unchecked cast or index. -/
inductive RResult (α : Type) where
  | ok : α → RResult α
  | err : GoError → RResult α
  | panic : RResult α
deriving DecidableEq, Repr

/-- Dynamic JSON values as produced by `json.Unmarshal` into `any`. -/
inductive Json where
  | str : String → Json
  | bool : Bool → Json
  | arr : List Json → Json
  | obj : List (String × Json) → Json

/-- Go map lookup on an object body: `nil` (`none`) when the key is absent. -/
def lookupObj : List (String × Json) → String → Option Json
  | [], _ => none
  | (k, v) :: rest, key => if k == key then some v else lookupObj rest key

/-- Lookup on an arbitrary dynamic value: a non-object (including the nil map
left by a failed unmarshal) has no keys. -/
def Json.lookup : Json → String → Option Json
  | Json.obj o, key => lookupObj o key
  | _, _ => none

/-- Go comparison `v == s` between a dynamic value and a string literal:
true exactly when `v` is that string; never a panic. -/
def eqStr (v : Option Json) (s : String) : Bool :=
  match v with
  | some (Json.str t) => t == s
  | _ => false

/-- One HTTP interaction with a JSON-speaking endpoint, as seen by the
embedded caller. -/
inductive HttpResp where
  | fail : TransportErr → HttpResp
  | resp : Nat → Json → HttpResp

/-- One HTTP interaction with the plain-text public-IP service. -/
inductive IpResp where
  | fail : TransportErr → IpResp
  | resp : Nat → String → IpResp

/-- Observable external calls of one run, in program order. -/
inductive Event where
  | zoneCall : Event
  | ipCall : Event
  | dnsCall : Event
  | writeRoot : Event
  | writeWWW : Event
deriving DecidableEq, Repr

/-- How the process ends: normal return (exit 0), `log.Fatal` (exit 1), or a
runtime panic. -/
inductive ExitStatus where
  | exitZero : ExitStatus
  | exitNonZero : ExitStatus
  | panicked : ExitStatus
deriving DecidableEq, Repr

/-- Embedding of `GetZoneID` (src/main.go): reads the zones listing and
extracts `result[0].id` through unchecked casts, ignoring the configured
domain and the HTTP status entirely. -/
def GetZoneID (r : HttpResp) : RResult String :=
  match r with
  | HttpResp.fail e => RResult.err (GoError.transport e)
  | HttpResp.resp _ body =>
    match body.lookup "result" with
    | some (Json.arr zones) =>
      match zones with
      | [] => RResult.panic
      | z :: _ =>
        match z with
        | Json.obj o =>
          match lookupObj o "id" with
          | some (Json.str s) => RResult.ok s
          | _ => RResult.panic
        | _ => RResult.panic
    | _ => RResult.panic

/-- Embedding of `GetPublicIP` (src/main.go): returns the raw body as the
address for every response that arrived, with no status check. -/
def GetPublicIP (r : IpResp) : RResult String :=
  match r with
  | IpResp.fail e => RResult.err (GoError.transport e)
  | IpResp.resp _ body => RResult.ok body

/-- One iteration of the record-scan loop in `GetDNSRecord`: state is
`(domainIP, domainID, wwwID)`; `none` models a panic on a malformed entry. -/
def scanStep (dn : String) (hw : Bool) (st : String × String × String)
    (j : Json) : Option (String × String × String) :=
  match j with
  | Json.obj o =>
    let name := lookupObj o "name"
    let rootPart : Option (String × String) :=
      if eqStr name dn then
        match lookupObj o "content", lookupObj o "id" with
        | some (Json.str c), some (Json.str i) => some (c, i)
        | _, _ => none
      else some (st.1, st.2.1)
    match rootPart with
    | none => none
    | some (dIP, dID) =>
      if hw && eqStr name ("www." ++ dn) then
        match lookupObj o "id" with
        | some (Json.str i) => some (dIP, dID, i)
        | _ => none
      else some (dIP, dID, st.2.2)
  | _ => none

/-- The while loop of `GetDNSRecord` over the `result` array. -/
def scanLoop (dn : String) (hw : Bool) :
    List Json → String × String × String → Option (String × String × String)
  | [], st => some st
  | j :: js, st =>
    match scanStep dn hw st j with
    | none => none
    | some st2 => scanLoop dn hw js st2

/-- Embedding of `GetDNSRecord` (src/main.go): linear scan of the record
list, then the two emptiness checks that produce its errors. -/
def GetDNSRecord (r : HttpResp) (dn : String) (hw : Bool) :
    RResult (String × String × String) :=
  match r with
  | HttpResp.fail e => RResult.err (GoError.transport e)
  | HttpResp.resp _ body =>
    match body.lookup "result" with
    | some (Json.arr recs) =>
      match scanLoop dn hw recs ("", "", "") with
      | none => RResult.panic
      | some (dIP, dID, wID) =>
        if dIP == "" then RResult.err GoError.noMatchDomain
        else if hw && wID == "" then RResult.err (GoError.noWWW dn)
        else RResult.ok (dIP, dID, wID)
    | _ => RResult.panic

/-- The confirmation check `updateDNSRecord` applies to one edit response:
`result` is cast to an object first, then `success` to a bool; the `content`
cast only runs when `success` is true (Go short-circuits the conjunction).
`none` models a panic. -/
def checkEdit (body : Json) (ip : String) : Option Bool :=
  match body.lookup "result" with
  | some (Json.obj ro) =>
    match body.lookup "success" with
    | some (Json.bool s) =>
      if s then
        match lookupObj ro "content" with
        | some (Json.str c) => some (c == ip)
        | _ => none
      else some false
    | _ => none
  | _ => none

/-- Embedding of `updateDNSRecord` (src/main.go).  The root edit request is
always fired; the www edit request is fired only inside the branch where the
root response passed `checkEdit`.  Returns the function result together with
the sequence of write calls issued. -/
def updateDNSRecord (rootResp wwwResp : HttpResp) (ip : String) (hw : Bool) :
    RResult Bool × List Event :=
  match rootResp with
  | HttpResp.fail e => (RResult.err (GoError.transport e), [Event.writeRoot])
  | HttpResp.resp _ body =>
    match checkEdit body ip with
    | none => (RResult.panic, [Event.writeRoot])
    | some false => (RResult.ok false, [Event.writeRoot])
    | some true =>
      if hw then
        match wwwResp with
        | HttpResp.fail e =>
          (RResult.err (GoError.transport e), [Event.writeRoot, Event.writeWWW])
        | HttpResp.resp _ wbody =>
          match checkEdit wbody ip with
          | none => (RResult.panic, [Event.writeRoot, Event.writeWWW])
          | some false => (RResult.ok false, [Event.writeRoot, Event.writeWWW])
          | some true => (RResult.ok true, [Event.writeRoot, Event.writeWWW])
      else (RResult.ok true, [Event.writeRoot])

/-- Whether one edit response confirms the write (transport succeeded,
`success` true, `content` echoes the target IP). -/
def editConfirmed (r : HttpResp) (ip : String) : Bool :=
  match r with
  | HttpResp.fail _ => false
  | HttpResp.resp _ b =>
    match checkEdit b ip with
    | some true => true
    | _ => false

/-- The responses the outside world gives to the five possible outbound
calls of one run. -/
structure World where
  zoneResp : HttpResp
  ipResp : IpResp
  dnsResp : HttpResp
  rootEditResp : HttpResp
  wwwEditResp : HttpResp

/-- Embedding of `main` (src/main.go) after flag parsing: the sequential
call chain, the string comparison deciding the no-op, and the final call to
`updateDNSRecord` whose return value `main` discards. -/
def runMain (w : World) (dn : String) (hw : Bool) : ExitStatus × List Event :=
  match GetZoneID w.zoneResp with
  | RResult.err _ => (ExitStatus.exitNonZero, [Event.zoneCall])
  | RResult.panic => (ExitStatus.panicked, [Event.zoneCall])
  | RResult.ok _ =>
    match GetPublicIP w.ipResp with
    | RResult.err _ => (ExitStatus.exitNonZero, [Event.zoneCall, Event.ipCall])
    | RResult.panic => (ExitStatus.panicked, [Event.zoneCall, Event.ipCall])
    | RResult.ok publicIP =>
      match GetDNSRecord w.dnsResp dn hw with
      | RResult.err _ =>
        (ExitStatus.exitNonZero, [Event.zoneCall, Event.ipCall, Event.dnsCall])
      | RResult.panic =>
        (ExitStatus.panicked, [Event.zoneCall, Event.ipCall, Event.dnsCall])
      | RResult.ok (dnsRecordIP, _domainID, _wwwID) =>
        if publicIP == dnsRecordIP then
          (ExitStatus.exitZero, [Event.zoneCall, Event.ipCall, Event.dnsCall])
        else
          let u := updateDNSRecord w.rootEditResp w.wwwEditResp publicIP hw
          (match u.1 with
           | RResult.err _ => ExitStatus.exitNonZero
           | RResult.panic => ExitStatus.panicked
           | RResult.ok _ => ExitStatus.exitZero,
           [Event.zoneCall, Event.ipCall, Event.dnsCall] ++ u.2)

/-- A provider zone entry, as (id, name). -/
def zoneJson (z : String × String) : Json :=
  Json.obj [("id", Json.str z.1), ("name", Json.str z.2)]

/-- A well-formed zones-listing response. -/
def mkZonesResp (zs : List (String × String)) : HttpResp :=
  HttpResp.resp 200 (Json.obj [("result", Json.arr (zs.map zoneJson))])

/-- A provider DNS record entry. -/
structure DnsRec where
  name : String
  id : String
  content : String
deriving DecidableEq, Repr

/-- The JSON object the provider lists for one record. -/
def recJson (r : DnsRec) : Json :=
  Json.obj [("id", Json.str r.id), ("name", Json.str r.name),
            ("content", Json.str r.content)]

/-- A well-formed records-listing response. -/
def mkRecordsResp (recs : List DnsRec) : HttpResp :=
  HttpResp.resp 200 (Json.obj [("result", Json.arr (recs.map recJson))])

/-- A well-formed edit response: `success` flag and echoed content. -/
def mkEditResp (success : Bool) (content : String) : HttpResp :=
  HttpResp.resp 200 (Json.obj [("success", Json.bool success),
                               ("result", Json.obj [("content", Json.str content)])])

/-- Pure counterpart of one scan iteration on a well-formed record. -/
def refStep (dn : String) (hw : Bool) (st : String × String × String)
    (r : DnsRec) : String × String × String :=
  let a := if r.name == dn then (r.content, r.id) else (st.1, st.2.1)
  if hw && (r.name == ("www." ++ dn)) then (a.1, a.2, r.id)
  else (a.1, a.2, st.2.2)

/-- Last element of the list satisfying `p`, threading an accumulator. -/
def lastMatchFrom (p : DnsRec → Bool) : Option DnsRec → List DnsRec → Option DnsRec
  | acc, [] => acc
  | acc, r :: rs => lastMatchFrom p (if p r then some r else acc) rs

/-- Last element of the list satisfying `p`. -/
def lastMatch (p : DnsRec → Bool) (recs : List DnsRec) : Option DnsRec :=
  lastMatchFrom p none recs

/-- Modelled from the spec (section 4.3): the Record Fetcher as the spec
words it — the root record is the last entry whose name equals the domain,
the www record the last entry whose name equals `"www." ++ dn`; missing root
gives `noMatchDomain`, missing www (when requested) gives `noWWW`. -/
def GetDNSRecordSpec (recs : List DnsRec) (dn : String) (hw : Bool) :
    RResult (String × String × String) :=
  match lastMatch (fun r => r.name == dn) recs with
  | none => RResult.err GoError.noMatchDomain
  | some r =>
    if hw then
      match lastMatch (fun r => r.name == ("www." ++ dn)) recs with
      | none => RResult.err (GoError.noWWW dn)
      | some s => RResult.ok (r.content, r.id, s.id)
    else RResult.ok (r.content, r.id, "")

theorem scanStep_recJson (dn : String) (hw : Bool) (st : String × String × String)
    (r : DnsRec) : scanStep dn hw st (recJson r) = some (refStep dn hw st r) := by
  cases h1 : r.name == dn <;>
    cases h2 : hw && (r.name == ("www." ++ dn)) <;>
      simp [scanStep, recJson, refStep, lookupObj, eqStr, h1, h2]

theorem scanLoop_map (dn : String) (hw : Bool) (recs : List DnsRec)
    (st : String × String × String) :
    scanLoop dn hw (recs.map recJson) st = some (recs.foldl (refStep dn hw) st) := by
  induction recs generalizing st with
  | nil => rfl
  | cons r rs ih =>
    simp [scanLoop, scanStep_recJson, List.foldl, ih]

theorem lastMatchFrom_acc (p : DnsRec → Bool) (acc : Option DnsRec)
    (recs : List DnsRec) :
    lastMatchFrom p acc recs =
      match lastMatchFrom p none recs with
      | some x => some x
      | none => acc := by
  induction recs generalizing acc with
  | nil => rfl
  | cons a as ih =>
    simp only [lastMatchFrom]
    rw [ih, ih (if p a then some a else none)]
    cases hD : lastMatchFrom p none as <;> cases hpa : p a <;> simp

theorem lastMatch_cons (p : DnsRec → Bool) (r : DnsRec) (rs : List DnsRec) :
    lastMatch p (r :: rs) =
      match lastMatch p rs with
      | some x => some x
      | none => if p r then some r else none := by
  simp only [lastMatch, lastMatchFrom]
  rw [lastMatchFrom_acc]

theorem lastMatchFrom_mem (p : DnsRec → Bool) (acc : Option DnsRec)
    (recs : List DnsRec) (r : DnsRec)
    (h : lastMatchFrom p acc recs = some r) : r ∈ recs ∨ acc = some r := by
  induction recs generalizing acc with
  | nil => exact Or.inr h
  | cons a as ih =>
    simp only [lastMatchFrom] at h
    rcases ih _ h with hmem | hacc
    · exact Or.inl (List.mem_cons_of_mem a hmem)
    · cases hpa : p a
      · rw [hpa] at hacc
        simp at hacc
        exact Or.inr hacc
      · rw [hpa] at hacc
        simp at hacc
        exact Or.inl (hacc ▸ List.mem_cons_self a as)

theorem lastMatch_mem (p : DnsRec → Bool) (recs : List DnsRec) (r : DnsRec)
    (h : lastMatch p recs = some r) : r ∈ recs := by
  rcases lastMatchFrom_mem p none recs r h with hmem | hacc
  · exact hmem
  · cases hacc

theorem lastMatchFrom_none_of_all (p : DnsRec → Bool) (acc : Option DnsRec)
    (recs : List DnsRec) (h : ∀ r ∈ recs, p r = false) :
    lastMatchFrom p acc recs = acc := by
  induction recs generalizing acc with
  | nil => rfl
  | cons a as ih =>
    simp only [lastMatchFrom]
    rw [h a (List.mem_cons_self a as)]
    exact ih _ (fun r hr => h r (List.mem_cons_of_mem a hr))

theorem lastMatch_isSome (p : DnsRec → Bool) (recs : List DnsRec) (r : DnsRec)
    (hmem : r ∈ recs) (hp : p r = true) : ∃ x, lastMatch p recs = some x := by
  induction recs with
  | nil => cases hmem
  | cons a as ih =>
    rw [lastMatch_cons]
    cases hD : lastMatch p as with
    | some x => exact ⟨x, rfl⟩
    | none =>
      rcases List.mem_cons.mp hmem with rfl | hmem2
      · rw [hp]
        exact ⟨r, rfl⟩
      · rcases ih hmem2 with ⟨x, hx⟩
        rw [hD] at hx
        cases hx

theorem foldl_refStep_eq (dn : String) (hw : Bool) (recs : List DnsRec)
    (st : String × String × String) :
    recs.foldl (refStep dn hw) st =
      ( (match lastMatch (fun r => r.name == dn) recs with
         | some r => r.content
         | none => st.1),
        (match lastMatch (fun r => r.name == dn) recs with
         | some r => r.id
         | none => st.2.1),
        (if hw then
           match lastMatch (fun r => r.name == ("www." ++ dn)) recs with
           | some s => s.id
           | none => st.2.2
         else st.2.2) ) := by
  induction recs generalizing st with
  | nil => cases hw <;> simp [lastMatch, lastMatchFrom]
  | cons r rs ih =>
    simp only [List.foldl]
    rw [ih]
    rw [lastMatch_cons, lastMatch_cons]
    cases hroot : lastMatch (fun x => x.name == dn) rs <;>
      cases hwww : lastMatch (fun x => x.name == ("www." ++ dn)) rs <;>
        cases h1 : r.name == dn <;>
          cases hw <;>
            cases h2 : r.name == ("www." ++ dn) <;>
              simp [refStep, h1, h2]

theorem GetDNSRecord_mkRecords (recs : List DnsRec) (dn : String) (hw : Bool) :
    GetDNSRecord (mkRecordsResp recs) dn hw =
      (if (recs.foldl (refStep dn hw) ("", "", "")).1 == "" then
         RResult.err GoError.noMatchDomain
       else if hw && (recs.foldl (refStep dn hw) ("", "", "")).2.2 == "" then
         RResult.err (GoError.noWWW dn)
       else RResult.ok (recs.foldl (refStep dn hw) ("", "", ""))) := by
  have h1 : GetDNSRecord (mkRecordsResp recs) dn hw =
      match scanLoop dn hw (recs.map recJson) ("", "", "") with
      | none => RResult.panic
      | some (dIP, dID, wID) =>
        if dIP == "" then RResult.err GoError.noMatchDomain
        else if hw && wID == "" then RResult.err (GoError.noWWW dn)
        else RResult.ok (dIP, dID, wID) := rfl
  rw [h1, scanLoop_map]

/-- Whether the embedded `GetZoneID` succeeded for this world. -/
def zoneResolved (w : World) : Bool :=
  match GetZoneID w.zoneResp with
  | RResult.ok _ => true
  | _ => false

theorem checkEdit_confirms (b : Json) (ip : String)
    (h : checkEdit b ip = some true) :
    b.lookup "success" = some (Json.bool true) ∧
    ∃ ro, b.lookup "result" = some (Json.obj ro) ∧
      lookupObj ro "content" = some (Json.str ip) := by
  unfold checkEdit at h
  cases hres : b.lookup "result" with
  | none => rw [hres] at h; cases h
  | some jres =>
    cases jres <;> rw [hres] at h <;> try cases h
    case obj ro =>
      cases hsuc : b.lookup "success" with
      | none => rw [hsuc] at h; cases h
      | some jsuc =>
        cases jsuc <;> rw [hsuc] at h <;> try cases h
        case bool s =>
          cases s
          · simp at h
          · refine ⟨rfl, ro, rfl, ?_⟩
            simp only [if_true] at h
            cases hcnt : lookupObj ro "content" with
            | none => rw [hcnt] at h; cases h
            | some jc =>
              cases jc <;> rw [hcnt] at h <;> try cases h
              case str c =>
                simp only [Option.some.injEq] at h
                rw [eq_of_beq h]

/-- C1 counterexample: with the two zones of the claim listed in the other
order, `GetZoneID` returns `"z2"`, the positionally first entry, not the
zone whose name equals `"example.com"`. -/
theorem C1_zone_counterexample :
    GetZoneID (mkZonesResp [("z2", "notexample.com"), ("z1", "example.com")]) =
      RResult.ok "z2" ∧ "z2" ≠ "z1" :=
  ⟨rfl, by decide⟩

/-- C1 (amended): `GetZoneID` does not receive the configured domain at all;
for every well-formed zones listing it returns the identifier of the first
entry, whatever its name, and on an empty listing it panics via the
out-of-range index rather than failing with a not-found error. -/
theorem C1_zone_first_entry (zs : List (String × String)) (h : zs ≠ []) :
    GetZoneID (mkZonesResp zs) = RResult.ok (zs.head h).1 ∧
    GetZoneID (mkZonesResp []) = RResult.panic := by
  cases zs with
  | nil => exact absurd rfl h
  | cons z rest => exact ⟨rfl, rfl⟩

/-- C1 witness: the amended theorem evaluated on a one-zone listing. -/
theorem C1_zone_first_entry_witness :
    GetZoneID (mkZonesResp [("z1", "example.com")]) = RResult.ok "z1" ∧
    GetZoneID (mkZonesResp []) = RResult.panic :=
  C1_zone_first_entry [("z1", "example.com")] (by decide)

/-- C2: whenever zone resolution and IP resolution succeed and the fetched
root-record content is string-equal to the public address, the run exits
zero after the three read calls and neither write is ever issued. -/
theorem C2_noop_no_writes (w : World) (dn : String) (hw : Bool)
    (zid ip did wid : String)
    (hz : GetZoneID w.zoneResp = RResult.ok zid)
    (hip : GetPublicIP w.ipResp = RResult.ok ip)
    (hd : GetDNSRecord w.dnsResp dn hw = RResult.ok (ip, did, wid)) :
    runMain w dn hw =
      (ExitStatus.exitZero, [Event.zoneCall, Event.ipCall, Event.dnsCall]) ∧
    Event.writeRoot ∉ (runMain w dn hw).2 ∧
    Event.writeWWW ∉ (runMain w dn hw).2 := by
  have hrun : runMain w dn hw =
      (ExitStatus.exitZero, [Event.zoneCall, Event.ipCall, Event.dnsCall]) := by
    unfold runMain
    rw [hz, hip, hd]
    simp
  refine ⟨hrun, ?_, ?_⟩ <;> rw [hrun] <;> decide

/-- The world of the concrete no-op scenario: record content already equals
the public address. -/
def wNoop : World where
  zoneResp := mkZonesResp [("z1", "example.com")]
  ipResp := IpResp.resp 200 "203.0.113.42"
  dnsResp := mkRecordsResp [⟨"example.com", "rec1", "203.0.113.42"⟩]
  rootEditResp := HttpResp.fail (TransportErr.other "unused")
  wwwEditResp := HttpResp.fail (TransportErr.other "unused")

/-- C2 witness: the no-op theorem evaluated on the concrete scenario. -/
theorem C2_noop_no_writes_witness :
    runMain wNoop "example.com" false =
      (ExitStatus.exitZero, [Event.zoneCall, Event.ipCall, Event.dnsCall]) ∧
    Event.writeRoot ∉ (runMain wNoop "example.com" false).2 ∧
    Event.writeWWW ∉ (runMain wNoop "example.com" false).2 :=
  C2_noop_no_writes wNoop "example.com" false "z1" "203.0.113.42" "rec1" ""
    rfl rfl rfl

/-- The world in which the root edit is issued but the provider reports
`success: false`: the update is unconfirmed. -/
def wSwallow : World where
  zoneResp := mkZonesResp [("z1", "example.com")]
  ipResp := IpResp.resp 200 "203.0.113.42"
  dnsResp := mkRecordsResp [⟨"example.com", "rec1", "198.51.100.1"⟩]
  rootEditResp := mkEditResp false "198.51.100.1"
  wwwEditResp := HttpResp.fail (TransportErr.other "unused")

/-- C3: the code exits with status zero on a run whose issued update was
not confirmed (`updateDNSRecord` returned false and `main` discarded it),
contradicting the requirement that an unconfirmed update is a run failure. -/
theorem C3_unconfirmed_update_exits_zero :
    runMain wSwallow "example.com" false =
      (ExitStatus.exitZero,
       [Event.zoneCall, Event.ipCall, Event.dnsCall, Event.writeRoot]) ∧
    (updateDNSRecord wSwallow.rootEditResp wSwallow.wwwEditResp
        "203.0.113.42" false).1 = RResult.ok false :=
  ⟨rfl, rfl⟩

/-- C8: `GetPublicIP` returns the response body as the address even for an
HTTP 500 response (no status check exists), while a timeout surfaces as a
transport error distinct from a connection-refused one. -/
theorem C8_status_never_checked :
    GetPublicIP (IpResp.resp 500 "Internal Server Error") =
      RResult.ok "Internal Server Error" ∧
    GetPublicIP (IpResp.fail TransportErr.deadlineExceeded) =
      RResult.err (GoError.transport TransportErr.deadlineExceeded) ∧
    GoError.transport TransportErr.deadlineExceeded ≠
      GoError.transport TransportErr.connectionRefused :=
  ⟨rfl, rfl, by decide⟩

/-- C10: syntactically well-formed provider responses on which the unchecked
casts panic: an empty `result` array makes `GetZoneID` panic via the index,
a body without a `result` array makes `GetDNSRecord` panic, and an edit
response whose `result` is not an object makes `updateDNSRecord` panic. -/
theorem C10_unchecked_casts_panic :
    GetZoneID (HttpResp.resp 200 (Json.obj [("result", Json.arr [])])) =
      RResult.panic ∧
    GetDNSRecord (HttpResp.resp 200 (Json.obj [("success", Json.bool true)]))
      "example.com" false = RResult.panic ∧
    (updateDNSRecord (HttpResp.resp 200 (Json.obj [("success", Json.bool true)]))
      (HttpResp.fail (TransportErr.other "x")) "1.2.3.4" false).1 =
      RResult.panic :=
  ⟨rfl, rfl, rfl⟩

/-- C5: for every pair of edit responses, the write sequence issued by
`updateDNSRecord` is exactly [root, www] when the www write happens at all,
and the www write happens exactly when the www flag is set and the root
response was confirmed; otherwise only the root write is issued (so a root
failure blocks the www write, and a later www failure issues no further
root write). -/
theorem C5_write_order (rootResp wwwResp : HttpResp) (ip : String) (hw : Bool) :
    (updateDNSRecord rootResp wwwResp ip hw).2 =
      if hw && editConfirmed rootResp ip then
        [Event.writeRoot, Event.writeWWW]
      else [Event.writeRoot] := by
  cases rootResp with
  | fail e => simp [updateDNSRecord, editConfirmed]
  | resp st b =>
    cases hce : checkEdit b ip with
    | none => simp [updateDNSRecord, editConfirmed, hce]
    | some v =>
      cases v with
      | false => simp [updateDNSRecord, editConfirmed, hce]
      | true =>
        cases hw with
        | false => simp [updateDNSRecord, editConfirmed, hce]
        | true =>
          cases wwwResp with
          | fail e2 => simp [updateDNSRecord, editConfirmed, hce]
          | resp st2 b2 =>
            cases hce2 : checkEdit b2 ip with
            | none => simp [updateDNSRecord, editConfirmed, hce, hce2]
            | some v2 =>
              cases v2 <;> simp [updateDNSRecord, editConfirmed, hce, hce2]

/-- C6: on every well-formed record listing whose entries have non-empty
contents and identifiers, the embedded `GetDNSRecord` coincides with the
last-match specification: the root record is the last entry whose name
equals the domain, the www record the last entry whose name equals
`"www." ++ domain`, with the corresponding not-found errors. -/
theorem C6_scan_last_match (recs : List DnsRec) (dn : String) (hw : Bool)
    (hc : ∀ r ∈ recs, r.content ≠ "")
    (hid : ∀ r ∈ recs, r.id ≠ "") :
    GetDNSRecord (mkRecordsResp recs) dn hw = GetDNSRecordSpec recs dn hw := by
  rw [GetDNSRecord_mkRecords, foldl_refStep_eq]
  cases hroot : lastMatch (fun r => r.name == dn) recs with
  | none => simp [GetDNSRecordSpec, hroot]
  | some r =>
    have hrc : (r.content == "") = false :=
      beq_eq_false_iff_ne.mpr (hc r (lastMatch_mem _ _ _ hroot))
    cases hw with
    | false => simp [GetDNSRecordSpec, hroot, hrc]
    | true =>
      cases hwww : lastMatch (fun r => r.name == ("www." ++ dn)) recs with
      | none => simp [GetDNSRecordSpec, hroot, hwww, hrc]
      | some s =>
        have hsid : (s.id == "") = false :=
          beq_eq_false_iff_ne.mpr (hid s (lastMatch_mem _ _ _ hwww))
        simp [GetDNSRecordSpec, hroot, hwww, hrc, hsid]

/-- C6 witness: a listing with a duplicate root name; the later entry wins
on both sides of the refinement. -/
theorem C6_scan_last_match_witness :
    GetDNSRecord
        (mkRecordsResp [⟨"example.com", "r1", "1.1.1.1"⟩,
                        ⟨"www.example.com", "w1", "1.1.1.1"⟩,
                        ⟨"example.com", "r2", "2.2.2.2"⟩])
        "example.com" true =
      GetDNSRecordSpec [⟨"example.com", "r1", "1.1.1.1"⟩,
                        ⟨"www.example.com", "w1", "1.1.1.1"⟩,
                        ⟨"example.com", "r2", "2.2.2.2"⟩] "example.com" true :=
  C6_scan_last_match _ "example.com" true (by decide) (by decide)

/-- C7: `updateDNSRecord` reports a completed update only when the root
response (and, with the www flag, the www response) arrived, passed the
`checkEdit` confirmation, and that confirmation forces `success: true`
together with a `content` field string-equal to the target IP. -/
theorem C7_content_echo_required (rootResp wwwResp : HttpResp) (ip : String)
    (hw : Bool)
    (h : (updateDNSRecord rootResp wwwResp ip hw).1 = RResult.ok true) :
    (∃ st b, rootResp = HttpResp.resp st b ∧ checkEdit b ip = some true ∧
      b.lookup "success" = some (Json.bool true) ∧
      ∃ ro, b.lookup "result" = some (Json.obj ro) ∧
        lookupObj ro "content" = some (Json.str ip)) ∧
    (hw = true →
      ∃ st b, wwwResp = HttpResp.resp st b ∧ checkEdit b ip = some true ∧
        b.lookup "success" = some (Json.bool true) ∧
        ∃ ro, b.lookup "result" = some (Json.obj ro) ∧
          lookupObj ro "content" = some (Json.str ip)) := by
  cases rootResp with
  | fail e => simp [updateDNSRecord] at h
  | resp st b =>
    cases hce : checkEdit b ip with
    | none => simp [updateDNSRecord, hce] at h
    | some v =>
      cases v with
      | false => simp [updateDNSRecord, hce] at h
      | true =>
        obtain ⟨hsuc, ro, hres, hcnt⟩ := checkEdit_confirms b ip hce
        refine ⟨⟨st, b, rfl, hce, hsuc, ro, hres, hcnt⟩, ?_⟩
        intro hhw
        subst hhw
        cases wwwResp with
        | fail e2 => simp [updateDNSRecord, hce] at h
        | resp st2 b2 =>
          cases hce2 : checkEdit b2 ip with
          | none => simp [updateDNSRecord, hce, hce2] at h
          | some v2 =>
            cases v2 with
            | false => simp [updateDNSRecord, hce, hce2] at h
            | true =>
              obtain ⟨hsuc2, ro2, hres2, hcnt2⟩ := checkEdit_confirms b2 ip hce2
              exact ⟨st2, b2, rfl, hce2, hsuc2, ro2, hres2, hcnt2⟩

/-- C7 witness: the theorem evaluated on confirming root and www responses. -/
theorem C7_content_echo_required_witness :
    (∃ st b, mkEditResp true "203.0.113.42" = HttpResp.resp st b ∧
      checkEdit b "203.0.113.42" = some true ∧
      b.lookup "success" = some (Json.bool true) ∧
      ∃ ro, b.lookup "result" = some (Json.obj ro) ∧
        lookupObj ro "content" = some (Json.str "203.0.113.42")) ∧
    (true = true →
      ∃ st b, mkEditResp true "203.0.113.42" = HttpResp.resp st b ∧
        checkEdit b "203.0.113.42" = some true ∧
        b.lookup "success" = some (Json.bool true) ∧
        ∃ ro, b.lookup "result" = some (Json.obj ro) ∧
          lookupObj ro "content" = some (Json.str "203.0.113.42")) :=
  C7_content_echo_required (mkEditResp true "203.0.113.42")
    (mkEditResp true "203.0.113.42") "203.0.113.42" true rfl

/-- A world whose zone listing fails at the transport level. -/
def wZoneFail : World where
  zoneResp := HttpResp.fail TransportErr.connectionRefused
  ipResp := IpResp.resp 200 "203.0.113.42"
  dnsResp := mkRecordsResp []
  rootEditResp := HttpResp.fail (TransportErr.other "unused")
  wwwEditResp := HttpResp.fail (TransportErr.other "unused")

/-- C9 counterexample: when zone resolution fails, the IP-resolution call
is never made at all — nothing concurrent is awaited, refuting the claim
that the other task is still launched and joined. -/
theorem C9_no_parallel_await :
    (runMain wZoneFail "example.com" false).2 = [Event.zoneCall] ∧
    Event.ipCall ∉ (runMain wZoneFail "example.com" false).2 :=
  ⟨rfl, by decide⟩

/-- C9 (amended): the two resolutions run sequentially — the zone call is
always first, the IP call is made exactly when zone resolution succeeded,
and when zone resolution fails the run ends after the single zone call
without exiting zero. -/
theorem C9_sequential_resolution (w : World) (dn : String) (hw : Bool) :
    (runMain w dn hw).2.take 1 = [Event.zoneCall] ∧
    (runMain w dn hw).2.take 2 =
      (if zoneResolved w then [Event.zoneCall, Event.ipCall]
       else [Event.zoneCall]) ∧
    (Event.ipCall ∈ (runMain w dn hw).2 ↔ zoneResolved w = true) ∧
    (zoneResolved w = false →
      (runMain w dn hw).2 = [Event.zoneCall] ∧
      (runMain w dn hw).1 ≠ ExitStatus.exitZero) := by
  unfold runMain zoneResolved
  cases hz : GetZoneID w.zoneResp with
  | err e => simp
  | panic => simp
  | ok zid =>
    cases hip : GetPublicIP w.ipResp with
    | err e => simp
    | panic => simp
    | ok ip =>
      cases hd : GetDNSRecord w.dnsResp dn hw with
      | err e => simp
      | panic => simp
      | ok t =>
        obtain ⟨dip, did, wid⟩ := t
        by_cases hb : (ip == dip) = true
        · simp [hb]
        · simp [hb]

/-- C9 witness: the amended theorem evaluated on the failing-zone world,
with the zone-failure hypothesis discharged concretely. -/
theorem C9_sequential_resolution_witness :
    (runMain wZoneFail "example.com" false).2 = [Event.zoneCall] ∧
    (runMain wZoneFail "example.com" false).1 ≠ ExitStatus.exitZero :=
  (C9_sequential_resolution wZoneFail "example.com" false).2.2.2 (by decide)

/-- C4: whenever the www flag is set, zone and IP resolution succeed, and
the record listing holds a root record (with non-empty content) but no
record named `"www." ++ domain`, the run fails with the missing-www error
after the three read calls and no write is ever issued. -/
theorem C4_missing_www_fail_fast (w : World) (dn : String) (recs : List DnsRec)
    (zid ip : String)
    (hz : GetZoneID w.zoneResp = RResult.ok zid)
    (hip : GetPublicIP w.ipResp = RResult.ok ip)
    (hdns : w.dnsResp = mkRecordsResp recs)
    (hc : ∀ r ∈ recs, r.content ≠ "")
    (hroot : ∃ r ∈ recs, r.name = dn)
    (hnw : ∀ r ∈ recs, r.name ≠ ("www." ++ dn)) :
    GetDNSRecord w.dnsResp dn true = RResult.err (GoError.noWWW dn) ∧
    runMain w dn true =
      (ExitStatus.exitNonZero, [Event.zoneCall, Event.ipCall, Event.dnsCall]) ∧
    Event.writeRoot ∉ (runMain w dn true).2 ∧
    Event.writeWWW ∉ (runMain w dn true).2 := by
  obtain ⟨r0, hr0mem, hr0name⟩ := hroot
  obtain ⟨rl, hrl⟩ := lastMatch_isSome (fun r => r.name == dn) recs r0 hr0mem
    (by simp [hr0name])
  have hwnone : lastMatch (fun r => r.name == ("www." ++ dn)) recs = none :=
    lastMatchFrom_none_of_all _ none recs
      (fun r hr => beq_eq_false_iff_ne.mpr (hnw r hr))
  have hrc : (rl.content == "") = false :=
    beq_eq_false_iff_ne.mpr (hc rl (lastMatch_mem _ _ _ hrl))
  have hget : GetDNSRecord w.dnsResp dn true = RResult.err (GoError.noWWW dn) := by
    rw [hdns, GetDNSRecord_mkRecords, foldl_refStep_eq, hrl, hwnone]
    simp [hrc]
  have hrun : runMain w dn true =
      (ExitStatus.exitNonZero, [Event.zoneCall, Event.ipCall, Event.dnsCall]) := by
    unfold runMain
    rw [hz, hip, hget]
  refine ⟨hget, hrun, ?_, ?_⟩ <;> rw [hrun] <;> decide

/-- A world whose record listing has the root record but no www record. -/
def wNoWWW : World where
  zoneResp := mkZonesResp [("z1", "example.com")]
  ipResp := IpResp.resp 200 "203.0.113.42"
  dnsResp := mkRecordsResp [⟨"example.com", "r1", "1.2.3.4"⟩]
  rootEditResp := HttpResp.fail (TransportErr.other "unused")
  wwwEditResp := HttpResp.fail (TransportErr.other "unused")

/-- C4 witness: the fail-fast theorem evaluated on the concrete scenario of
the claim. -/
theorem C4_missing_www_fail_fast_witness :
    GetDNSRecord wNoWWW.dnsResp "example.com" true =
      RResult.err (GoError.noWWW "example.com") ∧
    runMain wNoWWW "example.com" true =
      (ExitStatus.exitNonZero, [Event.zoneCall, Event.ipCall, Event.dnsCall]) ∧
    Event.writeRoot ∉ (runMain wNoWWW "example.com" true).2 ∧
    Event.writeWWW ∉ (runMain wNoWWW "example.com" true).2 :=
  C4_missing_www_fail_fast wNoWWW "example.com"
    [⟨"example.com", "r1", "1.2.3.4"⟩] "z1" "203.0.113.42"
    rfl rfl rfl (by decide)
    ⟨⟨"example.com", "r1", "1.2.3.4"⟩, by decide, rfl⟩ (by decide)
